import Mathlib

/-!
Verification of the comments-spa pagination / comment-service logic.

The definitions below are a shallow embedding of the repository's code:

* `Row`, `AttachmentRow` follow `apps/api/src/db/schema.ts` (tables
  `comments` and `attachments`; uuid columns are embedded as `String`,
  `timestamp with time zone` as `Nat` epoch instants).
* `findComments`, `executeCommentsQuery`, `buildWhereConditions`,
  `buildCursorCondition`, `processPaginationResults` follow
  `CommentsService` in `comments.service.ts`; the SQL query (WHERE /
  ORDER BY sortField dir, id dir / LIMIT limit+1 and the correlated
  `repliesCount` subquery and attachments aggregation) is embedded as
  filter / sort / take / map over the list of stored rows.
* the client-side cache reconciler follows `apps/web/src/lib/queries.ts`.
-/

open List

/-- A row of the `comments` table (`apps/api/src/db/schema.ts`). -/
structure Row where
  id : String
  userName : String
  email : String
  homePage : Option String
  text : String
  parentId : Option String
  createdAt : Nat
deriving DecidableEq, Repr

/-- The `file_type` enum of the schema. -/
inductive FileType
  | image
  | text
deriving DecidableEq, Repr

/-- A row of the `attachments` table (`apps/api/src/db/schema.ts`). -/
structure AttachmentRow where
  id : String
  commentId : String
  fileUrl : String
  fileType : FileType
deriving DecidableEq, Repr

/-- `sortBy` values accepted by `getCommentsQuerySchema`. -/
inductive SortBy
  | userName
  | email
  | createdAt
deriving DecidableEq, Repr

/-- `sortOrder` values accepted by `getCommentsQuerySchema`. -/
inductive SortOrder
  | asc
  | desc
deriving DecidableEq, Repr

/-- The validated query DTO (`GetCommentsQueryDto`). -/
structure GetCommentsQueryDto where
  limit : Nat
  cursor : Option String
  sortBy : SortBy
  sortOrder : SortOrder
deriving DecidableEq, Repr

/-! ### Generic strict/weak lexicographic comparisons on a (sort value, id) pair -/

/-- Strict lexicographic comparison of `(x₁, y₁)` against `(x₂, y₂)`:
exactly the shape of the keyset predicate built by `buildCursorCondition`. -/
abbrev lexLt {κ ν : Type} [LinearOrder κ] [LinearOrder ν]
    (x₁ : κ) (y₁ : ν) (x₂ : κ) (y₂ : ν) : Prop :=
  x₁ < x₂ ∨ (x₁ = x₂ ∧ y₁ < y₂)

theorem lexLt_trans {κ ν : Type} [LinearOrder κ] [LinearOrder ν]
    {x₁ x₂ x₃ : κ} {y₁ y₂ y₃ : ν}
    (h₁ : lexLt x₁ y₁ x₂ y₂) (h₂ : lexLt x₂ y₂ x₃ y₃) : lexLt x₁ y₁ x₃ y₃ := by
  rcases h₁ with h | ⟨e, hy⟩ <;> rcases h₂ with h' | ⟨e', hy'⟩
  · exact Or.inl (h.trans h')
  · exact Or.inl (lt_of_lt_of_le h (le_of_eq e'))
  · exact Or.inl (lt_of_le_of_lt (le_of_eq e) h')
  · exact Or.inr ⟨e.trans e', hy.trans hy'⟩

theorem lexLt_irrefl {κ ν : Type} [LinearOrder κ] [LinearOrder ν]
    {x : κ} {y : ν} : ¬ lexLt x y x y := by
  rintro (h | ⟨-, hy⟩)
  · exact lt_irrefl _ h
  · exact lt_irrefl _ hy

theorem lexLt_asymm {κ ν : Type} [LinearOrder κ] [LinearOrder ν]
    {x₁ x₂ : κ} {y₁ y₂ : ν}
    (h : lexLt x₁ y₁ x₂ y₂) : ¬ lexLt x₂ y₂ x₁ y₁ :=
  fun h' => lexLt_irrefl (lexLt_trans h h')

theorem lexLt_trichot {κ ν : Type} [LinearOrder κ] [LinearOrder ν]
    (x₁ : κ) (y₁ : ν) (x₂ : κ) (y₂ : ν) :
    lexLt x₁ y₁ x₂ y₂ ∨ (x₁ = x₂ ∧ y₁ = y₂) ∨ lexLt x₂ y₂ x₁ y₁ := by
  rcases lt_trichotomy x₁ x₂ with h | h | h
  · exact Or.inl (Or.inl h)
  · rcases lt_trichotomy y₁ y₂ with h' | h' | h'
    · exact Or.inl (Or.inr ⟨h, h'⟩)
    · exact Or.inr (Or.inl ⟨h, h'⟩)
    · exact Or.inr (Or.inr (Or.inr ⟨h.symm, h'⟩))
  · exact Or.inr (Or.inr (Or.inl h))

/-! ### The row comparison used by `ORDER BY sortField dir, id dir` -/

/-- Strict "sorts before" comparison in ascending direction for a given
sort field: primary key the field, secondary key the row id. -/
def fLex : SortBy → Row → Row → Prop
  | .userName, a, b => lexLt a.userName a.id b.userName b.id
  | .email, a, b => lexLt a.email a.id b.email b.id
  | .createdAt, a, b => lexLt a.createdAt a.id b.createdAt b.id

/-- Equality of the active sort field of two rows. -/
def fieldEq : SortBy → Row → Row → Prop
  | .userName, a, b => a.userName = b.userName
  | .email, a, b => a.email = b.email
  | .createdAt, a, b => a.createdAt = b.createdAt

/-- Strict comparison of the active sort field of two rows. -/
def fieldLt : SortBy → Row → Row → Prop
  | .userName, a, b => a.userName < b.userName
  | .email, a, b => a.email < b.email
  | .createdAt, a, b => a.createdAt < b.createdAt

/-- Equality of the `(sort field, id)` key pair of two rows. -/
def keyEq (sb : SortBy) (a b : Row) : Prop :=
  fieldEq sb a b ∧ a.id = b.id

instance (sb : SortBy) (a b : Row) : Decidable (fLex sb a b) := by
  cases sb <;> (dsimp [fLex]; infer_instance)

instance (sb : SortBy) (a b : Row) : Decidable (fieldEq sb a b) := by
  cases sb <;> (dsimp [fieldEq]; infer_instance)

instance (sb : SortBy) (a b : Row) : Decidable (fieldLt sb a b) := by
  cases sb <;> (dsimp [fieldLt]; infer_instance)

instance (sb : SortBy) (a b : Row) : Decidable (keyEq sb a b) := by
  unfold keyEq; infer_instance

theorem fLex_iff (sb : SortBy) (a b : Row) :
    fLex sb a b ↔ fieldLt sb a b ∨ (fieldEq sb a b ∧ a.id < b.id) := by
  cases sb <;> exact Iff.rfl

theorem fieldEq_symm {sb : SortBy} {a b : Row} (h : fieldEq sb a b) : fieldEq sb b a := by
  cases sb <;> exact h.symm

theorem keyEq_symm {sb : SortBy} {a b : Row} (h : keyEq sb a b) : keyEq sb b a :=
  ⟨fieldEq_symm h.1, h.2.symm⟩

theorem fLex_trans {sb : SortBy} {a b c : Row}
    (h₁ : fLex sb a b) (h₂ : fLex sb b c) : fLex sb a c := by
  cases sb <;> exact lexLt_trans h₁ h₂

theorem fLex_irrefl {sb : SortBy} {a : Row} : ¬ fLex sb a a := by
  cases sb <;> exact lexLt_irrefl

theorem fLex_asymm {sb : SortBy} {a b : Row} (h : fLex sb a b) : ¬ fLex sb b a :=
  fun h' => fLex_irrefl (fLex_trans h h')

theorem fLex_trichot (sb : SortBy) (a b : Row) :
    fLex sb a b ∨ keyEq sb a b ∨ fLex sb b a := by
  cases sb <;> exact lexLt_trichot ..

/-- The strict row order produced by `ORDER BY sortField dir, id dir`
(`executeCommentsQuery` applies `orderDirection` to both sort keys). -/
def rowLT (sb : SortBy) : SortOrder → Row → Row → Prop
  | .asc => fun a b => fLex sb a b
  | .desc => fun a b => fLex sb b a

/-- The matching non-strict row order: `rowLT` or equal `(sort field, id)` keys. -/
def rowLE (sb : SortBy) (so : SortOrder) (a b : Row) : Prop :=
  rowLT sb so a b ∨ keyEq sb a b

instance (sb : SortBy) (so : SortOrder) : DecidableRel (rowLT sb so) := by
  intro a b; cases so <;> (dsimp [rowLT]; infer_instance)

instance (sb : SortBy) (so : SortOrder) : DecidableRel (rowLE sb so) := by
  intro a b; unfold rowLE; infer_instance

theorem rowLT_trans {sb : SortBy} {so : SortOrder} {a b c : Row}
    (h₁ : rowLT sb so a b) (h₂ : rowLT sb so b c) : rowLT sb so a c := by
  cases so
  · exact fLex_trans h₁ h₂
  · exact fLex_trans h₂ h₁

theorem rowLT_irrefl {sb : SortBy} {so : SortOrder} {a : Row} : ¬ rowLT sb so a a := by
  cases so <;> exact fLex_irrefl

theorem rowLT_asymm {sb : SortBy} {so : SortOrder} {a b : Row}
    (h : rowLT sb so a b) : ¬ rowLT sb so b a :=
  fun h' => rowLT_irrefl (rowLT_trans h h')

theorem rowLT_trichot (sb : SortBy) (so : SortOrder) (a b : Row) :
    rowLT sb so a b ∨ keyEq sb a b ∨ rowLT sb so b a := by
  cases so
  · exact fLex_trichot sb a b
  · rcases fLex_trichot sb b a with h | h | h
    · exact Or.inl h
    · exact Or.inr (Or.inl (keyEq_symm h))
    · exact Or.inr (Or.inr h)

theorem keyEq_fLex_left {sb : SortBy} {a b c : Row}
    (e : keyEq sb a b) (h : fLex sb a c) : fLex sb b c := by
  obtain ⟨e₁, e₂⟩ := e
  cases sb <;> (dsimp [fieldEq] at e₁; dsimp [fLex] at h ⊢; rw [← e₁, ← e₂]; exact h)

theorem keyEq_fLex_right {sb : SortBy} {a b c : Row}
    (e : keyEq sb a b) (h : fLex sb c a) : fLex sb c b := by
  obtain ⟨e₁, e₂⟩ := e
  cases sb <;> (dsimp [fieldEq] at e₁; dsimp [fLex] at h ⊢; rw [← e₁, ← e₂]; exact h)

theorem keyEq_rowLT_left {sb : SortBy} {so : SortOrder} {a b c : Row}
    (e : keyEq sb a b) (h : rowLT sb so a c) : rowLT sb so b c := by
  cases so
  · exact keyEq_fLex_left e h
  · exact keyEq_fLex_right e h

theorem keyEq_rowLT_right {sb : SortBy} {so : SortOrder} {a b c : Row}
    (e : keyEq sb a b) (h : rowLT sb so c a) : rowLT sb so c b := by
  cases so
  · exact keyEq_fLex_right e h
  · exact keyEq_fLex_left e h

theorem keyEq_trans {sb : SortBy} {a b c : Row}
    (e₁ : keyEq sb a b) (e₂ : keyEq sb b c) : keyEq sb a c := by
  refine ⟨?_, e₁.2.trans e₂.2⟩
  cases sb <;> exact e₁.1.trans e₂.1

theorem rowLE_trans {sb : SortBy} {so : SortOrder} {a b c : Row}
    (h₁ : rowLE sb so a b) (h₂ : rowLE sb so b c) : rowLE sb so a c := by
  rcases h₁ with h₁ | h₁ <;> rcases h₂ with h₂ | h₂
  · exact Or.inl (rowLT_trans h₁ h₂)
  · exact Or.inl (keyEq_rowLT_right h₂ h₁)
  · exact Or.inl (keyEq_rowLT_left (keyEq_symm h₁) h₂)
  · exact Or.inr (keyEq_trans h₁ h₂)

theorem rowLE_total (sb : SortBy) (so : SortOrder) (a b : Row) :
    rowLE sb so a b ∨ rowLE sb so b a := by
  rcases rowLT_trichot sb so a b with h | h | h
  · exact Or.inl (Or.inl h)
  · exact Or.inl (Or.inr h)
  · exact Or.inr (Or.inl h)

instance (sb : SortBy) (so : SortOrder) : IsTrans Row (rowLE sb so) :=
  ⟨fun _ _ _ => rowLE_trans⟩

instance (sb : SortBy) (so : SortOrder) : IsTotal Row (rowLE sb so) :=
  ⟨rowLE_total sb so⟩

theorem rowLE_antisymm_keys {sb : SortBy} {so : SortOrder} {a b : Row}
    (h₁ : rowLE sb so a b) (h₂ : rowLE sb so b a) : keyEq sb a b := by
  rcases h₁ with h₁ | h₁
  · rcases h₂ with h₂ | h₂
    · exact absurd h₂ (rowLT_asymm h₁)
    · exact keyEq_symm h₂
  · exact h₁

theorem rowLT_of_rowLE_of_ne_key {sb : SortBy} {so : SortOrder} {a b : Row}
    (h : rowLE sb so a b) (hne : ¬ keyEq sb a b) : rowLT sb so a b := by
  rcases h with h | h
  · exact h
  · exact absurd h hne

/-! ### The read-path pipeline of `CommentsService` (`comments.service.ts`) -/

/-- JavaScript truthiness of an optional string (`parentId ? … : …`,
`if (query.cursor)`, `homePage || null`): absent or empty is falsy. -/
def strTruthy : Option String → Bool
  | none => false
  | some s => !s.isEmpty

/-- One row of the select produced by `executeCommentsQuery`: the comment
columns plus the correlated `repliesCount` aggregate and the
`JSON_AGG`-gathered attachments. -/
structure CommentOut where
  id : String
  userName : String
  email : String
  homePage : Option String
  text : String
  parentId : Option String
  createdAt : Nat
  repliesCount : Nat
  attachments : List AttachmentRow
deriving DecidableEq, Repr

/-- The select of `executeCommentsQuery` applied to one matched row:
`repliesCount` is `SELECT COUNT(*) FROM comments AS replies WHERE
replies.parent_id = comments.id`, and `attachments` collects the
attachment rows joined on `comment_id`. -/
def toOut (store : List Row) (atts : List AttachmentRow) (r : Row) : CommentOut :=
  { id := r.id
    userName := r.userName
    email := r.email
    homePage := r.homePage
    text := r.text
    parentId := r.parentId
    createdAt := r.createdAt
    repliesCount := (store.filter (fun x => x.parentId == some r.id)).length
    attachments := atts.filter (fun a => a.commentId == r.id) }

/-- The comment columns of an output row, as a `Row`. -/
def outRow (c : CommentOut) : Row :=
  ⟨c.id, c.userName, c.email, c.homePage, c.text, c.parentId, c.createdAt⟩

/-- The base scope condition of `buildWhereConditions`:
`parentId ? eq(comments.parentId, parentId) : isNull(comments.parentId)`. -/
def scopeCond (parentId : Option String) (r : Row) : Bool :=
  if strTruthy parentId then r.parentId == parentId else r.parentId == none

/-- The keyset predicate built by `buildCursorCondition` from the cursor
row's sort-field value and id. -/
def cursorCond (sb : SortBy) (so : SortOrder) (cur : Row) (r : Row) : Bool :=
  match so with
  | .desc => decide (fieldLt sb r cur) || (decide (fieldEq sb r cur) && decide (r.id < cur.id))
  | .asc => decide (fieldLt sb cur r) || (decide (fieldEq sb r cur) && decide (cur.id < r.id))

/-- The `SELECT … WHERE id = cursor LIMIT 1` lookup inside
`buildCursorCondition`. -/
def findCursorRow (store : List Row) (cursor : String) : Option Row :=
  store.find? (fun c => c.id == cursor)

/-- `buildCursorCondition`: look the cursor row up by id; if present,
return the strict keyset inequality, otherwise `null`. -/
def buildCursorCondition (store : List Row) (q : GetCommentsQueryDto) :
    Option (Row → Bool) :=
  match q.cursor with
  | none => none
  | some cur =>
    match findCursorRow store cur with
    | some cursorComment => some (cursorCond q.sortBy q.sortOrder cursorComment)
    | none => none

/-- `buildWhereConditions`: the scope condition, plus the cursor condition
when a cursor is given and resolves. -/
def buildWhereConditions (store : List Row) (q : GetCommentsQueryDto)
    (parentId : Option String) : List (Row → Bool) :=
  let base := scopeCond parentId
  if strTruthy q.cursor then
    match buildCursorCondition store q with
    | some c => [base, c]
    | none => [base]
  else
    [base]

/-- `executeCommentsQuery`: WHERE the conjunction of the conditions,
ORDER BY the sort field then id (both in the requested direction),
LIMIT `limit + 1`, and select the columns plus aggregates. -/
def executeCommentsQuery (store : List Row) (atts : List AttachmentRow)
    (q : GetCommentsQueryDto) (conds : List (Row → Bool)) : List CommentOut :=
  ((((store.filter (fun r => conds.all (fun c => c r))).insertionSort
      (rowLE q.sortBy q.sortOrder)).take (q.limit + 1)).map (toOut store atts))

/-- The `{data, nextCursor}` page returned by `findComments`. -/
structure PaginatedCommentsResponse where
  data : List CommentOut
  nextCursor : Option String
deriving DecidableEq, Repr

/-- `processPaginationResults`: truncate the padded result set and emit
the next cursor (`hasNextPage ? data[data.length - 1]?.id ?? null : null`). -/
def processPaginationResults (results : List CommentOut) (limit : Nat) :
    PaginatedCommentsResponse :=
  let data := if limit < results.length then results.take limit else results
  { data := data
    nextCursor := if limit < results.length then (data.getLast?).map (·.id) else none }

/-- `findComments`: build the where conditions, run the query, assemble
the page. -/
def findComments (store : List Row) (atts : List AttachmentRow)
    (q : GetCommentsQueryDto) (parentId : Option String) : PaginatedCommentsResponse :=
  processPaginationResults
    (executeCommentsQuery store atts q (buildWhereConditions store q parentId))
    q.limit

/-! ### C2: the pagination assembler -/

/-- C2: for every sorted result set of up to `limit + 1` rows fed to
`processPaginationResults`: if the row count exceeds `limit`, the returned
data is exactly the first `limit` rows in unchanged order and `nextCursor`
is the id of the last row of that truncated data; otherwise the full set
is returned and `nextCursor` is `null`. -/
theorem c2_pagination_assembler (results : List CommentOut) (limit : Nat)
    (hfeed : results.length ≤ limit + 1) (hpos : 1 ≤ limit) :
    (limit < results.length →
      (processPaginationResults results limit).data = results.take limit ∧
      ∃ last, (results.take limit).getLast? = some last ∧
        (processPaginationResults results limit).nextCursor = some last.id) ∧
    (results.length ≤ limit →
      (processPaginationResults results limit).data = results ∧
      (processPaginationResults results limit).nextCursor = none) := by
  constructor
  · intro h
    have hlen : (results.take limit).length = limit := by
      rw [List.length_take]; omega
    have hne : results.take limit ≠ [] := by
      intro hnil; rw [hnil] at hlen; simp at hlen; omega
    obtain ⟨last, hlast⟩ := Option.isSome_iff_exists.mp
      (List.getLast?_isSome.mpr hne)
    refine ⟨by simp [processPaginationResults, if_pos h], last, hlast, ?_⟩
    simp [processPaginationResults, if_pos h, hlast]
  · intro h
    have h' : ¬ limit < results.length := by omega
    simp [processPaginationResults, if_neg h']

/-! ### C3: the keyset predicate built from a resolving cursor -/

/-- C3: for every request whose cursor resolves to an existing comment row,
`buildCursorCondition` produces the strict keyset predicate built from that
row's sort-field value and id: for descending order
`(sortField < cursorValue) OR (sortField = cursorValue AND id < cursorId)`;
for ascending order the mirrored form with `>` in place of `<`. -/
theorem c3_cursor_keyset_predicate (store : List Row) (q : GetCommentsQueryDto)
    (c : String) (cursorRow : Row)
    (hq : q.cursor = some c) (hfind : findCursorRow store c = some cursorRow) :
    ∃ pred, buildCursorCondition store q = some pred ∧ ∀ r : Row,
      pred r = true ↔
        (match q.sortOrder with
         | .desc => fieldLt q.sortBy r cursorRow ∨
             (fieldEq q.sortBy r cursorRow ∧ r.id < cursorRow.id)
         | .asc => fieldLt q.sortBy cursorRow r ∨
             (fieldEq q.sortBy r cursorRow ∧ cursorRow.id < r.id)) := by
  refine ⟨cursorCond q.sortBy q.sortOrder cursorRow, ?_, ?_⟩
  · unfold buildCursorCondition
    rw [hq]
    dsimp only
    rw [hfind]
  · intro r
    cases hso : q.sortOrder <;> simp [cursorCond]

/-! ### C6: a cursor that resolves to no row restarts pagination -/

/-- C6: for a page request whose cursor matches no stored row, the cursor
condition is omitted and the caller receives exactly the page the same
request without a cursor would produce (a full unfiltered first page for
the scope and sort), not an error. -/
theorem c6_unresolved_cursor_fallback (store : List Row) (atts : List AttachmentRow)
    (q : GetCommentsQueryDto) (pid : Option String) (c : String)
    (hq : q.cursor = some c) (hmiss : ∀ r ∈ store, r.id ≠ c) :
    findComments store atts q pid =
      findComments store atts { q with cursor := none } pid := by
  have hfind : findCursorRow store c = none := by
    unfold findCursorRow
    apply List.find?_eq_none.mpr
    intro r hr
    simpa using hmiss r hr
  have hbw : buildWhereConditions store q pid = [scopeCond pid] := by
    simp only [buildWhereConditions, buildCursorCondition]
    rw [hq]
    dsimp only
    rw [hfind]
    split <;> rfl
  have hbw' : buildWhereConditions store { q with cursor := none } pid = [scopeCond pid] := by
    simp [buildWhereConditions, strTruthy]
  unfold findComments
  rw [hbw, hbw']
  rfl

/-! ### C7: repliesCount aggregation -/

/-- C7: every comment in a returned page carries a `repliesCount` equal to
the number of stored comments whose `parentId` is its id at fetch time,
whether the comment is a root or a nested reply (the count is computed in
the same retrieval pass, by construction of `executeCommentsQuery`). -/
theorem c7_replies_count (store : List Row) (atts : List AttachmentRow)
    (q : GetCommentsQueryDto) (pid : Option String) (c : CommentOut)
    (hc : c ∈ (findComments store atts q pid).data) :
    c.repliesCount = (store.filter (fun x => x.parentId == some c.id)).length := by
  have hres : c ∈ executeCommentsQuery store atts q (buildWhereConditions store q pid) := by
    simp only [findComments, processPaginationResults] at hc
    by_cases h :
        q.limit < (executeCommentsQuery store atts q (buildWhereConditions store q pid)).length
    · rw [if_pos h] at hc
      exact List.take_subset _ _ hc
    · rwa [if_neg h] at hc
  unfold executeCommentsQuery at hres
  obtain ⟨r, hr, rfl⟩ := List.mem_map.mp hres
  rfl

/-! ### C8: deterministic total order of result pages -/

theorem outRow_toOut (store : List Row) (atts : List AttachmentRow) (r : Row) :
    outRow (toOut store atts r) = r := rfl

/-- A list sorted under `rowLE` whose ids are distinct is strictly sorted
under `rowLT`. -/
theorem pairwise_rowLT_of_sorted_nodup {sb : SortBy} {so : SortOrder} {l : List Row}
    (hs : l.Sorted (rowLE sb so)) (hn : (l.map Row.id).Nodup) :
    l.Pairwise (rowLT sb so) := by
  have hne : l.Pairwise (fun a b : Row => a.id ≠ b.id) := List.pairwise_map.mp hn
  exact (hs.and hne).imp fun h => rowLT_of_rowLE_of_ne_key h.1 (fun hk => h.2 hk.2)

/-- The raw (padded) row list produced by `executeCommentsQuery` before the
select, for reuse across proofs. -/
def queryRows (store : List Row) (q : GetCommentsQueryDto)
    (conds : List (Row → Bool)) : List Row :=
  ((store.filter (fun r => conds.all (fun c => c r))).insertionSort
      (rowLE q.sortBy q.sortOrder)).take (q.limit + 1)

theorem executeCommentsQuery_eq (store : List Row) (atts : List AttachmentRow)
    (q : GetCommentsQueryDto) (conds : List (Row → Bool)) :
    executeCommentsQuery store atts q conds =
      (queryRows store q conds).map (toOut store atts) := rfl

/-- The padded row list is strictly sorted when stored ids are distinct. -/
theorem queryRows_pairwise (store : List Row) (q : GetCommentsQueryDto)
    (conds : List (Row → Bool)) (hnodup : (store.map Row.id).Nodup) :
    (queryRows store q conds).Pairwise (rowLT q.sortBy q.sortOrder) := by
  set M := store.filter (fun r => conds.all (fun c => c r)) with hM
  have hMsub : M <+ store := List.filter_sublist store
  have hsorted : (M.insertionSort (rowLE q.sortBy q.sortOrder)).Sorted
      (rowLE q.sortBy q.sortOrder) := List.sorted_insertionSort _ M
  have hperm : M.insertionSort (rowLE q.sortBy q.sortOrder) ~ M :=
    List.perm_insertionSort _ M
  have hnodupM : (M.map Row.id).Nodup := (hMsub.map Row.id).nodup hnodup
  have hnodupS : ((M.insertionSort (rowLE q.sortBy q.sortOrder)).map Row.id).Nodup :=
    (List.Perm.nodup_iff (hperm.map Row.id)).mpr hnodupM
  exact (pairwise_rowLT_of_sorted_nodup hsorted hnodupS).sublist (List.take_sublist _ _)

/-- C8: for every `sortBy` and `sortOrder`, the data of a returned page is
strictly ordered by the pair (sort field, id) in the requested direction:
consecutive-free total order, so no two comments of the page compare equal
under `(sortField, id)` and the page boundary is deterministic. -/
theorem c8_total_order (store : List Row) (atts : List AttachmentRow)
    (q : GetCommentsQueryDto) (pid : Option String)
    (hnodup : (store.map Row.id).Nodup) :
    ((findComments store atts q pid).data).Pairwise
      (fun a b => rowLT q.sortBy q.sortOrder (outRow a) (outRow b)) := by
  have hrows := queryRows_pairwise store q (buildWhereConditions store q pid) hnodup
  have hres : (executeCommentsQuery store atts q
      (buildWhereConditions store q pid)).Pairwise
      (fun a b => rowLT q.sortBy q.sortOrder (outRow a) (outRow b)) := by
    rw [executeCommentsQuery_eq]
    exact List.pairwise_map.mpr hrows
  simp only [findComments, processPaginationResults]
  split
  · exact hres.sublist (List.take_sublist _ _)
  · exact hres

/-! ### Helper lemmas for the keyset-pagination proof (C1) -/

/-- Two sorted permutations of each other are equal, provided the order is
antisymmetric on the elements actually present (here: rows of a store with
distinct ids). -/
theorem eq_of_perm_of_pairwise_on {α : Type} {le : α → α → Prop} :
    ∀ {l₁ l₂ : List α}, l₁ ~ l₂ → l₁.Pairwise le → l₂.Pairwise le →
      (∀ a ∈ l₁, ∀ b ∈ l₁, le a b → le b a → a = b) → l₁ = l₂ := by
  intro l₁
  induction l₁ with
  | nil =>
    intro l₂ hp _ _ _
    exact (hp.symm.eq_nil).symm
  | cons a t ih =>
    intro l₂ hp hs₁ hs₂ hanti
    cases l₂ with
    | nil => exact absurd hp.eq_nil (by simp)
    | cons b u =>
      have hab : a = b := by
        rcases List.mem_cons.mp (hp.subset (List.mem_cons_self a t)) with h | hau
        · exact h
        · have hba : le b a := (List.pairwise_cons.mp hs₂).1 a hau
          rcases List.mem_cons.mp (hp.symm.subset (List.mem_cons_self b u)) with h | hbt
          · exact h.symm
          · have hab : le a b := (List.pairwise_cons.mp hs₁).1 b hbt
            exact hanti a (List.mem_cons_self a t) b (List.mem_cons_of_mem a hbt) hab hba
      subst hab
      have hp' : t ~ u := hp.cons_inv
      have ht := ih hp' hs₁.of_cons hs₂.of_cons
        (fun x hx y hy => hanti x (List.mem_cons_of_mem a hx) y (List.mem_cons_of_mem a hy))
      rw [ht]

/-- In a store with distinct ids, `find?` by a member's id returns exactly
that member (the `LIMIT 1` lookup of `buildCursorCondition`). -/
theorem find?_eq_of_nodup_ids {l : List Row} {r : Row}
    (hn : (l.map Row.id).Nodup) (hr : r ∈ l) :
    l.find? (fun x => x.id == r.id) = some r := by
  induction l with
  | nil => cases hr
  | cons a t ih =>
    rw [List.map_cons, List.nodup_cons] at hn
    rcases List.mem_cons.mp hr with rfl | hrt
    · simp [List.find?]
    · have hne : (a.id == r.id) = false := by
        apply beq_eq_false_iff_ne.mpr
        intro hid
        exact hn.1 (hid ▸ List.mem_map_of_mem Row.id hrt)
      simp only [List.find?, hne]
      exact ih hn.2 hrt

/-- In a store with distinct ids, equal ids mean equal rows. -/
theorem eq_of_mem_of_id_eq {l : List Row} {a b : Row}
    (hn : (l.map Row.id).Nodup) (ha : a ∈ l) (hb : b ∈ l) (hid : a.id = b.id) :
    a = b := by
  have := find?_eq_of_nodup_ids hn ha
  rw [hid, find?_eq_of_nodup_ids hn hb] at this
  exact (Option.some_inj.mp this).symm

/-- The predicate built by `buildCursorCondition` holds of a row exactly
when the row sorts strictly after the cursor row in the traversal order. -/
theorem cursorCond_iff (sb : SortBy) (so : SortOrder) (cur r : Row) :
    cursorCond sb so cur r = true ↔ rowLT sb so cur r := by
  cases so
  · show (decide (fieldLt sb cur r) || (decide (fieldEq sb r cur) && decide (cur.id < r.id)))
        = true ↔ fLex sb cur r
    rw [fLex_iff]
    simp only [Bool.or_eq_true, Bool.and_eq_true, decide_eq_true_eq]
    constructor
    · rintro (h | ⟨h₁, h₂⟩)
      · exact Or.inl h
      · exact Or.inr ⟨fieldEq_symm h₁, h₂⟩
    · rintro (h | ⟨h₁, h₂⟩)
      · exact Or.inl h
      · exact Or.inr ⟨fieldEq_symm h₁, h₂⟩
  · show (decide (fieldLt sb r cur) || (decide (fieldEq sb r cur) && decide (r.id < cur.id)))
        = true ↔ fLex sb r cur
    rw [fLex_iff]
    simp only [Bool.or_eq_true, Bool.and_eq_true, decide_eq_true_eq]

/-- `buildWhereConditions` returns either just the scope condition or the
scope condition plus a keyset condition for a resolving cursor row. -/
theorem buildWhereConditions_cases (store : List Row) (q : GetCommentsQueryDto)
    (pid : Option String) :
    buildWhereConditions store q pid = [scopeCond pid] ∨
      ∃ c₀ cur₀, q.cursor = some c₀ ∧ findCursorRow store c₀ = some cur₀ ∧
        buildWhereConditions store q pid =
          [scopeCond pid, cursorCond q.sortBy q.sortOrder cur₀] := by
  by_cases hc : strTruthy q.cursor = true
  · cases hq : q.cursor with
    | none =>
      refine Or.inl ?_
      unfold buildWhereConditions buildCursorCondition
      rw [if_pos hc, hq]
    | some c₀ =>
      cases hf : findCursorRow store c₀ with
      | none =>
        refine Or.inl ?_
        unfold buildWhereConditions buildCursorCondition
        rw [if_pos hc, hq]
        dsimp only
        rw [hf]
      | some cur₀ =>
        refine Or.inr ⟨c₀, cur₀, rfl, hf, ?_⟩
        unfold buildWhereConditions buildCursorCondition
        rw [if_pos hc, hq]
        dsimp only
        rw [hf]
  · refine Or.inl ?_
    unfold buildWhereConditions
    rw [if_neg hc]

/-- The sorted list of all rows matching a request's where conditions. -/
def sortedFull (store : List Row) (q : GetCommentsQueryDto) (pid : Option String) :
    List Row :=
  (store.filter
    (fun r => (buildWhereConditions store q pid).all (fun c => c r))).insertionSort
    (rowLE q.sortBy q.sortOrder)

theorem sortedFull_sorted (store : List Row) (q : GetCommentsQueryDto)
    (pid : Option String) :
    (sortedFull store q pid).Sorted (rowLE q.sortBy q.sortOrder) :=
  List.sorted_insertionSort _ _

theorem sortedFull_perm (store : List Row) (q : GetCommentsQueryDto)
    (pid : Option String) :
    sortedFull store q pid ~
      store.filter (fun r => (buildWhereConditions store q pid).all (fun c => c r)) :=
  List.perm_insertionSort _ _

theorem sortedFull_nodup_ids (store : List Row) (q : GetCommentsQueryDto)
    (pid : Option String) (hnodup : (store.map Row.id).Nodup) :
    ((sortedFull store q pid).map Row.id).Nodup :=
  (List.Perm.nodup_iff ((sortedFull_perm store q pid).map Row.id)).mpr
    (((List.filter_sublist store).map Row.id).nodup hnodup)

theorem sortedFull_pairwise (store : List Row) (q : GetCommentsQueryDto)
    (pid : Option String) (hnodup : (store.map Row.id).Nodup) :
    (sortedFull store q pid).Pairwise (rowLT q.sortBy q.sortOrder) :=
  pairwise_rowLT_of_sorted_nodup (sortedFull_sorted store q pid)
    (sortedFull_nodup_ids store q pid hnodup)

theorem sortedFull_subset (store : List Row) (q : GetCommentsQueryDto)
    (pid : Option String) : ∀ r ∈ sortedFull store q pid, r ∈ store :=
  fun r hr =>
    (List.filter_sublist store).subset ((sortedFull_perm store q pid).subset hr)

/-- The data of a page is always the select applied to the first `limit`
rows of the sorted matching set. -/
theorem findComments_data (store : List Row) (atts : List AttachmentRow)
    (q : GetCommentsQueryDto) (pid : Option String) :
    (findComments store atts q pid).data =
      ((sortedFull store q pid).take q.limit).map (toOut store atts) := by
  have he : executeCommentsQuery store atts q (buildWhereConditions store q pid)
      = ((sortedFull store q pid).take (q.limit + 1)).map (toOut store atts) := rfl
  simp only [findComments, processPaginationResults, he]
  split
  · rw [← List.map_take, List.take_take, min_eq_left (by omega)]
  · next h =>
    rw [List.length_map, List.length_take] at h
    have hlen : (sortedFull store q pid).length ≤ q.limit := by omega
    rw [List.take_of_length_le (le_trans hlen (by omega)), List.take_of_length_le hlen]

/-- A returned `nextCursor` is the id of the last row of the truncated
page, and certifies that more than `limit` rows matched. -/
theorem nextCursor_char (store : List Row) (atts : List AttachmentRow)
    (q : GetCommentsQueryDto) (pid : Option String) (c : String)
    (hcur : (findComments store atts q pid).nextCursor = some c) :
    q.limit < (sortedFull store q pid).length ∧
      ∃ cr : Row, ((sortedFull store q pid).take q.limit).getLast? = some cr ∧
        c = cr.id := by
  have he : executeCommentsQuery store atts q (buildWhereConditions store q pid)
      = ((sortedFull store q pid).take (q.limit + 1)).map (toOut store atts) := rfl
  simp only [findComments, processPaginationResults, he] at hcur
  split at hcur
  · next h =>
    rw [List.length_map, List.length_take] at h
    constructor
    · omega
    · rw [← List.map_take, List.take_take, min_eq_left (by omega),
        List.getLast?_map] at hcur
      obtain ⟨cr, hcr, hid⟩ := Option.map_eq_some'.mp hcur
      obtain ⟨cr', hcr', hid'⟩ := Option.map_eq_some'.mp hcr
      exact ⟨cr', hcr', by rw [← hid, ← hid']; rfl⟩
  · exact absurd hcur (by simp)

/-- Any row matching a request's where conditions satisfies the scope
condition (the scope condition is always the first condition). -/
theorem scope_of_mem_filterConds {store : List Row} {q : GetCommentsQueryDto}
    {pid : Option String} {r : Row}
    (h : (buildWhereConditions store q pid).all (fun cnd => cnd r) = true) :
    scopeCond pid r = true := by
  rcases buildWhereConditions_cases store q pid with hbw | ⟨c₀, cur₀, hq₀, hf₀, hbw⟩ <;>
    rw [hbw] at h <;>
    simp only [List.all_cons, List.all_nil, Bool.and_true, Bool.and_eq_true] at h
  · exact h
  · exact h.1

/-- C1 (keyset pagination correctness): fetch a page of `limit` rows; let
`c` be its returned `nextCursor` and let rows be inserted that belong to
the same scope and sort strictly before the page's last row (the
already-visited cursor region). Fetching the next page from the grown
store with cursor `c` yields ids disjoint from the first page, and the
concatenation of both pages' data equals the data of a single fetch with
limit `2 * limit` against the original store under the same scope, sort
and original cursor. -/
theorem c1_keyset_pagination (S1 new : List Row) (A : List AttachmentRow)
    (q : GetCommentsQueryDto) (pid : Option String) (c : String) (lastOut : CommentOut)
    (hnodup : ((S1 ++ new).map Row.id).Nodup)
    (hids : ∀ r ∈ S1 ++ new, r.id ≠ "")
    (hforest : ∀ r ∈ S1 ++ new, r.parentId ≠ some r.id)
    (hL : 1 ≤ q.limit) (hL100 : q.limit ≤ 100)
    (hcur : (findComments S1 A q pid).nextCursor = some c)
    (hlast : (findComments S1 A q pid).data.getLast? = some lastOut)
    (hnew : ∀ n ∈ new, scopeCond pid n = true ∧
      rowLT q.sortBy q.sortOrder n (outRow lastOut)) :
    (∀ x ∈ (findComments S1 A q pid).data,
       ∀ y ∈ (findComments (S1 ++ new) A { q with cursor := some c } pid).data,
         x.id ≠ y.id) ∧
    (findComments S1 A q pid).data
        ++ (findComments (S1 ++ new) A { q with cursor := some c } pid).data
      = (findComments S1 A { q with limit := 2 * q.limit } pid).data := by
  have hnodup1 : (S1.map Row.id).Nodup := by
    rw [List.map_append] at hnodup
    exact hnodup.of_append_left
  obtain ⟨hlen1, cr, hcr, hceq⟩ := nextCursor_char S1 A q pid c hcur
  set F := sortedFull S1 q pid with hF
  have htk_len : (F.take q.limit).length = q.limit := by
    rw [List.length_take]; omega
  have htk_ne : F.take q.limit ≠ [] := by
    intro h
    rw [h] at htk_len
    simp at htk_len
    omega
  have hcr_getLast : (F.take q.limit).getLast htk_ne = cr := by
    rw [List.getLast?_eq_getLast _ htk_ne] at hcr
    exact Option.some_inj.mp hcr
  have hcr_mem_tk : cr ∈ F.take q.limit := hcr_getLast ▸ List.getLast_mem htk_ne
  have hcr_mem_F : cr ∈ F := List.take_subset _ _ hcr_mem_tk
  have hcr_S1 : cr ∈ S1 := sortedFull_subset S1 q pid cr hcr_mem_F
  have hcr_S2 : cr ∈ S1 ++ new := List.mem_append_left _ hcr_S1
  have hdata1 : (findComments S1 A q pid).data = (F.take q.limit).map (toOut S1 A) :=
    findComments_data S1 A q pid
  have hlast' : lastOut = toOut S1 A cr := by
    rw [hdata1, List.getLast?_map, List.getLast?_eq_getLast _ htk_ne, hcr_getLast] at hlast
    exact (Option.some_inj.mp hlast).symm
  have hor : outRow lastOut = cr := by rw [hlast']; rfl
  have hpairF : F.Pairwise (rowLT q.sortBy q.sortOrder) :=
    sortedFull_pairwise S1 q pid hnodup1
  have hsortF : F.Sorted (rowLE q.sortBy q.sortOrder) := sortedFull_sorted S1 q pid
  have htkdr : F.take q.limit ++ F.drop q.limit = F := List.take_append_drop _ _
  have hpair2 : (F.take q.limit ++ F.drop q.limit).Pairwise (rowLT q.sortBy q.sortOrder) := by
    rw [htkdr]; exact hpairF
  have hcross : ∀ x ∈ F.take q.limit, ∀ y ∈ F.drop q.limit,
      rowLT q.sortBy q.sortOrder x y := (List.pairwise_append.mp hpair2).2.2
  have hid_ne : cr.id ≠ "" := hids cr hcr_S2
  have hstr : strTruthy (some c) = true := by
    have hie : c.isEmpty = false := by
      rw [hceq]
      cases hemp : cr.id.isEmpty
      · rfl
      · exact absurd ((String.isEmpty_iff cr.id).mp hemp) hid_ne
    show (!c.isEmpty) = true
    rw [hie]
    rfl
  have hfind2 : findCursorRow (S1 ++ new) c = some cr := by
    unfold findCursorRow
    rw [hceq]
    exact find?_eq_of_nodup_ids hnodup hcr_S2
  have hbc2 : buildWhereConditions (S1 ++ new) { q with cursor := some c } pid
      = [scopeCond pid, cursorCond q.sortBy q.sortOrder cr] := by
    simp only [buildWhereConditions, buildCursorCondition]
    rw [if_pos hstr]
    rw [hfind2]
  have hdr_sorted : (F.drop q.limit).Pairwise (rowLE q.sortBy q.sortOrder) :=
    List.Pairwise.sublist (List.drop_sublist _ _) hsortF
  have hhead : ∀ x ∈ F.take q.limit, ¬ (cursorCond q.sortBy q.sortOrder cr x = true) := by
    intro x hx hax
    have hlt : rowLT q.sortBy q.sortOrder cr x := (cursorCond_iff _ _ _ _).mp hax
    have e : F.take q.limit = (F.take q.limit).dropLast ++ [cr] := by
      conv_lhs => rw [← List.dropLast_append_getLast htk_ne]
      rw [hcr_getLast]
    have htkpair : (F.take q.limit).Pairwise (rowLT q.sortBy q.sortOrder) :=
      (List.pairwise_append.mp hpair2).1
    have htkpair' : ((F.take q.limit).dropLast ++ [cr]).Pairwise
        (rowLT q.sortBy q.sortOrder) := by
      rw [← e]; exact htkpair
    rcases List.mem_append.mp (e ▸ hx) with hxd | hxc
    · exact rowLT_asymm
        ((List.pairwise_append.mp htkpair').2.2 x hxd cr (List.mem_singleton_self cr)) hlt
    · rw [List.mem_singleton.mp hxc] at hlt
      exact rowLT_irrefl hlt
  have htail : ∀ y ∈ F.drop q.limit, cursorCond q.sortBy q.sortOrder cr y = true :=
    fun y hy => (cursorCond_iff _ _ _ _).mpr (hcross cr hcr_mem_tk y hy)
  have hfilterF : F.filter (cursorCond q.sortBy q.sortOrder cr) = F.drop q.limit := by
    conv_lhs => rw [← htkdr]
    rw [List.filter_append, List.filter_eq_nil_iff.mpr hhead,
      List.filter_eq_self.mpr htail, List.nil_append]
  have hpermF : F ~ S1.filter
      (fun r => (buildWhereConditions S1 q pid).all (fun cnd => cnd r)) :=
    sortedFull_perm S1 q pid
  have hpoint : ∀ r ∈ S1,
      (scopeCond pid r && cursorCond q.sortBy q.sortOrder cr r)
        = (cursorCond q.sortBy q.sortOrder cr r
            && ((buildWhereConditions S1 q pid).all (fun cnd => cnd r))) := by
    rcases buildWhereConditions_cases S1 q pid with hbw1 | ⟨c₀, cur₀, hq₀, hf₀, hbw1⟩
    · intro r _
      rw [hbw1]
      simp only [List.all_cons, List.all_nil, Bool.and_true]
      exact Bool.and_comm _ _
    · have hcrM : cr ∈ S1.filter
          (fun r => (buildWhereConditions S1 q pid).all (fun cnd => cnd r)) :=
        hpermF.subset hcr_mem_F
      have hcr_all : ((buildWhereConditions S1 q pid).all (fun cnd => cnd cr)) = true :=
        (List.mem_filter.mp hcrM).2
      have hcur0 : cursorCond q.sortBy q.sortOrder cur₀ cr = true := by
        rw [hbw1] at hcr_all
        simp only [List.all_cons, List.all_nil, Bool.and_true, Bool.and_eq_true] at hcr_all
        exact hcr_all.2
      have hlt0 : rowLT q.sortBy q.sortOrder cur₀ cr := (cursorCond_iff _ _ _ _).mp hcur0
      intro r _
      rw [hbw1]
      cases hsc : scopeCond pid r <;> cases hac : cursorCond q.sortBy q.sortOrder cr r
      · simp [List.all_cons, hsc, hac]
      · simp [List.all_cons, hsc, hac]
      · simp [List.all_cons, hsc, hac]
      · have h₀ : cursorCond q.sortBy q.sortOrder cur₀ r = true :=
          (cursorCond_iff _ _ _ _).mpr
            (rowLT_trans hlt0 ((cursorCond_iff _ _ _ _).mp hac))
        simp [List.all_cons, hsc, hac, h₀]
  have hchain : (S1 ++ new).filter
      (fun r => (buildWhereConditions (S1 ++ new) { q with cursor := some c } pid).all
        (fun cnd => cnd r)) ~ F.drop q.limit := by
    rw [hbc2, List.filter_append]
    have hnewnil : new.filter
        (fun r => ([scopeCond pid, cursorCond q.sortBy q.sortOrder cr]).all
          (fun cnd => cnd r)) = [] := by
      apply List.filter_eq_nil_iff.mpr
      intro n hn hcontra
      simp only [List.all_cons, List.all_nil, Bool.and_true, Bool.and_eq_true] at hcontra
      have hlt : rowLT q.sortBy q.sortOrder n cr := hor ▸ (hnew n hn).2
      exact rowLT_asymm hlt ((cursorCond_iff _ _ _ _).mp hcontra.2)
    rw [hnewnil, List.append_nil]
    have hS1filter : S1.filter
        (fun r => ([scopeCond pid, cursorCond q.sortBy q.sortOrder cr]).all
          (fun cnd => cnd r))
        = (S1.filter (fun r => (buildWhereConditions S1 q pid).all
            (fun cnd => cnd r))).filter (cursorCond q.sortBy q.sortOrder cr) := by
      rw [List.filter_filter]
      apply List.filter_congr
      intro r hr
      simp only [List.all_cons, List.all_nil, Bool.and_true]
      exact hpoint r hr
    rw [hS1filter]
    have hpf : (S1.filter (fun r => (buildWhereConditions S1 q pid).all
        (fun cnd => cnd r))).filter (cursorCond q.sortBy q.sortOrder cr)
        ~ F.filter (cursorCond q.sortBy q.sortOrder cr) :=
      List.Perm.filter _ hpermF.symm
    rw [hfilterF] at hpf
    exact hpf
  have hfull2 : sortedFull (S1 ++ new) { q with cursor := some c } pid = F.drop q.limit := by
    apply eq_of_perm_of_pairwise_on
      ((sortedFull_perm (S1 ++ new) { q with cursor := some c } pid).trans hchain)
      (sortedFull_sorted (S1 ++ new) { q with cursor := some c } pid)
      hdr_sorted
    intro a ha b hb hab hba
    exact eq_of_mem_of_id_eq hnodup
      (sortedFull_subset _ _ _ a ha) (sortedFull_subset _ _ _ b hb)
      (rowLE_antisymm_keys hab hba).2
  have hdata2 : (findComments (S1 ++ new) A { q with cursor := some c } pid).data
      = ((F.drop q.limit).take q.limit).map (toOut (S1 ++ new) A) := by
    rw [findComments_data, hfull2]
  have hdata3 : (findComments S1 A { q with limit := 2 * q.limit } pid).data
      = (F.take (2 * q.limit)).map (toOut S1 A) := by
    rw [findComments_data]
    rfl
  have htoOut : ∀ r ∈ (F.drop q.limit).take q.limit,
      toOut (S1 ++ new) A r = toOut S1 A r := by
    intro r hr
    have hrdr : r ∈ F.drop q.limit := List.take_subset _ _ hr
    have hrF : r ∈ F := (List.drop_sublist _ _).subset hrdr
    have hrS1 : r ∈ S1 := sortedFull_subset S1 q pid r hrF
    have hcount : (S1 ++ new).filter (fun x => x.parentId == some r.id)
        = S1.filter (fun x => x.parentId == some r.id) := by
      rw [List.filter_append]
      have hnil : new.filter (fun x => x.parentId == some r.id) = [] := by
        apply List.filter_eq_nil_iff.mpr
        intro n hn hpar
        have hpareq : n.parentId = some r.id := by simpa using hpar
        have hsc := (hnew n hn).1
        by_cases hp : strTruthy pid = true
        · have hnp : n.parentId = pid := by
            unfold scopeCond at hsc
            rw [if_pos hp] at hsc
            simpa using hsc
          have hrM : r ∈ S1.filter
              (fun x => (buildWhereConditions S1 q pid).all (fun cnd => cnd x)) :=
            hpermF.subset hrF
          have hscope_r : scopeCond pid r = true :=
            scope_of_mem_filterConds (List.mem_filter.mp hrM).2
          have hrpid : r.parentId = pid := by
            unfold scopeCond at hscope_r
            rw [if_pos hp] at hscope_r
            simpa using hscope_r
          have hps : pid = some r.id := by
            rw [hnp] at hpareq
            exact hpareq
          exact hforest r (List.mem_append_left _ hrS1) (by rw [hrpid, hps])
        · have hnp : n.parentId = none := by
            unfold scopeCond at hsc
            rw [if_neg hp] at hsc
            simpa using hsc
          rw [hnp] at hpareq
          exact Option.noConfusion hpareq
      rw [hnil, List.append_nil]
    simp only [toOut, hcount]
  refine ⟨?_, ?_⟩
  · intro x hx y hy
    rw [hdata1] at hx
    rw [hdata2] at hy
    obtain ⟨a, ha, rfl⟩ := List.mem_map.mp hx
    obtain ⟨b, hb, rfl⟩ := List.mem_map.mp hy
    have hbdr : b ∈ F.drop q.limit := List.take_subset _ _ hb
    have hFnodup : (F.map Row.id).Nodup := sortedFull_nodup_ids S1 q pid hnodup1
    have hsplit : ((F.take q.limit).map Row.id ++ (F.drop q.limit).map Row.id).Nodup := by
      rw [← List.map_append, htkdr]
      exact hFnodup
    have hdisj := (List.nodup_append.mp hsplit).2.2
    intro hxy
    have hxy' : a.id = b.id := hxy
    refine hdisj (List.mem_map_of_mem Row.id ha) ?_
    rw [hxy']
    exact List.mem_map_of_mem Row.id hbdr
  · rw [hdata1, hdata2, hdata3, List.map_congr_left htoOut, ← List.map_append]
    congr 1
    conv_rhs => rw [← htkdr]
    rw [List.take_append_eq_append_take, htk_len,
      @List.take_of_length_le _ (2 * q.limit) (F.take q.limit) (by rw [htk_len]; omega)]
    have h2L : 2 * q.limit - q.limit = q.limit := by omega
    rw [h2L]

/-! ### The write path: `CommentsService.createComment` -/

/-- The validated creation DTO (`CreateCommentDto`). -/
structure CreateCommentDto where
  userName : String
  email : String
  homePage : Option String
  text : String
  parentId : Option String
  captchaToken : String
deriving DecidableEq, Repr

/-- JavaScript `x || null` on an optional string. -/
def orNull : Option String → Option String
  | none => none
  | some s => if s.isEmpty then none else some s

/-- Outcome of one `createComment` call: the service result plus the
resulting `comments` and `attachments` tables. -/
structure CreateResult where
  result : Except String Row
  comments : List Row
  attachments : List AttachmentRow
deriving Repr

/-- `CommentsService.createComment`: validate the CAPTCHA (collaborator
outcome `captchaOk`; failure aborts before any persistence), sanitize the
text (collaborator `sanitize`), insert the Comment row (`newId` / `now`
stand for the DB-generated uuid and timestamp), then — only if files were
supplied — process and upload them; `uploadResult` is the collaborator
outcome: `some recs` is a successful upload yielding attachment records,
`none` is a failure of the upload or of the attachment insert, which the
service catches and rethrows as `Failed to process attachments` without
rolling the Comment insert back. No existence check of `parentId` is done
and the schema/migration define no foreign key on `parent_id`. -/
def createComment (store : List Row) (atts : List AttachmentRow)
    (dto : CreateCommentDto) (captchaOk : Bool) (sanitize : String → String)
    (newId : String) (now : Nat) (files : List String)
    (uploadResult : Option (List AttachmentRow)) : CreateResult :=
  if !captchaOk then
    { result := .error "Invalid CAPTCHA.", comments := store, attachments := atts }
  else
    let sanitizedText := sanitize dto.text
    let newComment : Row :=
      { id := newId
        userName := dto.userName
        email := dto.email
        homePage := orNull dto.homePage
        text := sanitizedText
        parentId := orNull dto.parentId
        createdAt := now }
    let withComment := store ++ [newComment]
    if files.isEmpty then
      { result := .ok newComment, comments := withComment, attachments := atts }
    else
      match uploadResult with
      | some recs =>
        { result := .ok newComment
          comments := withComment
          attachments := atts ++ recs.map (fun a => { a with commentId := newComment.id }) }
      | none =>
        { result := .error "Failed to process attachments"
          comments := withComment
          attachments := atts }

/-! ### C5: dangling `parentId` is accepted by the write path -/

/-- C5 evaluation at the failing input: on an empty store, creating a
comment whose `parentId` is a well-formed uuid matching no existing
comment succeeds, and the stored row's `parentId` references no stored
comment — the write is not rejected (no FK on `parent_id`, no lookup in
`createComment`), contradicting the referential-integrity claim. -/
theorem c5_dangling_parent_accepted :
    (createComment [] []
        { userName := "alice", email := "alice@example.com", homePage := none,
          text := "hi", parentId := some "00000000-0000-0000-0000-000000000001",
          captchaToken := "tok" }
        true (fun t => t) "11111111-1111-1111-1111-111111111111" 0 [] none).comments
      = [{ id := "11111111-1111-1111-1111-111111111111", userName := "alice",
           email := "alice@example.com", homePage := none, text := "hi",
           parentId := some "00000000-0000-0000-0000-000000000001", createdAt := 0 }] ∧
    (∀ r ∈ (createComment [] []
        { userName := "alice", email := "alice@example.com", homePage := none,
          text := "hi", parentId := some "00000000-0000-0000-0000-000000000001",
          captchaToken := "tok" }
        true (fun t => t) "11111111-1111-1111-1111-111111111111" 0 [] none).comments,
      r.parentId = some "00000000-0000-0000-0000-000000000001" ∧
        ∀ p ∈ (createComment [] []
            { userName := "alice", email := "alice@example.com", homePage := none,
              text := "hi", parentId := some "00000000-0000-0000-0000-000000000001",
              captchaToken := "tok" }
            true (fun t => t) "11111111-1111-1111-1111-111111111111" 0 [] none).comments,
          p.id ≠ "00000000-0000-0000-0000-000000000001") := by
  constructor
  · rfl
  · decide

/-! ### C9: attachment failure after the comment insert -/

/-- C9: when CAPTCHA passes, files are present, and attachment processing
or the attachment insert fails, the creation call surfaces a failure, yet
the already-inserted Comment row stays stored (appended to the store) and
no attachment rows are written — the Comment is not rolled back. -/
theorem c9_attachment_failure_keeps_comment (store : List Row)
    (atts : List AttachmentRow) (dto : CreateCommentDto) (sanitize : String → String)
    (newId : String) (now : Nat) (files : List String)
    (hfiles : files.isEmpty = false) :
    (createComment store atts dto true sanitize newId now files none).result
        = .error "Failed to process attachments" ∧
    (createComment store atts dto true sanitize newId now files none).comments
        = store ++ [⟨newId, dto.userName, dto.email, orNull dto.homePage,
            sanitize dto.text, orNull dto.parentId, now⟩] ∧
    (createComment store atts dto true sanitize newId now files none).attachments
        = atts := by
  unfold createComment
  rw [hfiles]
  simp

/-! ### C10: request validation of the `cursor` query parameter -/

/-- An unvalidated page-retrieval query as it arrives over HTTP: every
parameter is an optional string (`getCommentsQuerySchema` input). -/
structure RawQuery where
  limit : Option String
  cursor : Option String
  sortBy : Option String
  sortOrder : Option String
deriving DecidableEq, Repr

def isHexDigitChar (ch : Char) : Bool :=
  ch.isDigit || ('a' ≤ ch && ch ≤ 'f') || ('A' ≤ ch && ch ≤ 'F')

/-- The uuid shape checked by `z.string().uuid()`: 36 characters, dashes
at positions 8, 13, 18 and 23, hex digits elsewhere. -/
def isValidUuid (s : String) : Bool :=
  let cs := s.data
  cs.length == 36 &&
    (List.range 36).all (fun i =>
      if i == 8 || i == 13 || i == 18 || i == 23 then cs.getD i ' ' == '-'
      else isHexDigitChar (cs.getD i ' '))

/-- The `limit` field pipeline of `getCommentsQuerySchema`: digits-only
string, converted to a number, refined to `1 ≤ n ≤ 100`. -/
def parseLimit (s : String) : Except String Nat :=
  if s.isEmpty || !(s.data.all Char.isDigit) then
    .error "Limit must be a number"
  else
    match s.toNat? with
    | some n => if 1 ≤ n && n ≤ 100 then .ok n else .error "Limit must be between 1 and 100"
    | none => .error "Limit must be a number"

/-- The `sortBy` enum field, defaulting to `createdAt`. -/
def parseSortBy : Option String → Except String SortBy
  | none => .ok .createdAt
  | some "userName" => .ok .userName
  | some "email" => .ok .email
  | some "createdAt" => .ok .createdAt
  | some _ => .error "Invalid sortBy"

/-- The `sortOrder` enum field, defaulting to `desc`. -/
def parseSortOrder : Option String → Except String SortOrder
  | none => .ok .desc
  | some "asc" => .ok .asc
  | some "desc" => .ok .desc
  | some _ => .error "Invalid sortOrder"

/-- `getCommentsQuerySchema` validation: `limit` defaults to 25, `cursor`
must be a syntactically valid uuid when present, `sortBy` / `sortOrder`
are enums with defaults. Any invalid field rejects the request. -/
def parseGetCommentsQuery (raw : RawQuery) : Except String GetCommentsQueryDto :=
  match (match raw.limit with
    | none => Except.ok 25
    | some s => parseLimit s) with
  | .error e => .error e
  | .ok limit =>
    match (match raw.cursor with
      | none => Except.ok none
      | some s =>
        if isValidUuid s then Except.ok (some s)
        else Except.error "Invalid cursor format") with
    | .error e => .error e
    | .ok cursor =>
      match parseSortBy raw.sortBy with
      | .error e => .error e
      | .ok sortBy =>
        match parseSortOrder raw.sortOrder with
        | .error e => .error e
        | .ok sortOrder =>
          .ok { limit := limit, cursor := cursor, sortBy := sortBy, sortOrder := sortOrder }

/-- The `GET /comments` route: the query DTO is produced by validation
before `CommentsService.findComments` ever runs; a validation failure is
returned without planning any query. -/
def findAllRoute (store : List Row) (atts : List AttachmentRow) (raw : RawQuery) :
    Except String PaginatedCommentsResponse :=
  match parseGetCommentsQuery raw with
  | .error e => .error e
  | .ok q => .ok (findComments store atts q none)

/-- C10: a request whose `cursor` parameter is present but not a
syntactically valid uuid is rejected by validation before any query is
planned; consequently the lenient cursor-not-found fallback can only ever
see well-formed uuid cursors: any successfully validated query carries the
original cursor, which must be a valid uuid. -/
theorem c10_cursor_validated_before_query (store : List Row)
    (atts : List AttachmentRow) (raw : RawQuery) :
    (∀ s, raw.cursor = some s → isValidUuid s = false →
      ∃ e, findAllRoute store atts raw = Except.error e) ∧
    (∀ q, parseGetCommentsQuery raw = Except.ok q →
      ∀ s, raw.cursor = some s → isValidUuid s = true ∧ q.cursor = some s) := by
  constructor
  · intro s hs hbad
    cases hl : (match raw.limit with
      | none => Except.ok 25
      | some s => parseLimit s) with
    | error e =>
      refine ⟨e, ?_⟩
      unfold findAllRoute parseGetCommentsQuery
      rw [hl]
    | ok n =>
      refine ⟨"Invalid cursor format", ?_⟩
      unfold findAllRoute parseGetCommentsQuery
      rw [hl, hs]
      simp [hbad]
  · intro q hq s hs
    unfold parseGetCommentsQuery at hq
    rw [hs] at hq
    cases hl : (match raw.limit with
      | none => Except.ok 25
      | some s => parseLimit s) with
    | error e => rw [hl] at hq; exact absurd hq (by simp)
    | ok n =>
      rw [hl] at hq
      dsimp only at hq
      by_cases hv : isValidUuid s = true
      · refine ⟨hv, ?_⟩
        rw [if_pos hv] at hq
        dsimp only at hq
        cases hsb : parseSortBy raw.sortBy with
        | error e => rw [hsb] at hq; exact absurd hq (by simp)
        | ok sb =>
          rw [hsb] at hq
          dsimp only at hq
          cases hso : parseSortOrder raw.sortOrder with
          | error e => rw [hso] at hq; exact absurd hq (by simp)
          | ok so =>
            rw [hso] at hq
            dsimp only at hq
            have := (Except.ok.injEq ..).mp hq
            rw [← this]
      · rw [if_neg hv] at hq
        dsimp only at hq
        exact absurd hq (by simp)

/-! ### The client cache reconciler (`apps/web/src/lib/queries.ts`) -/

/-- A client-side comment (`api.ts` `Comment`): `createdAt` is an ISO
string on the client, `repliesCount` a JavaScript number (embedded as
`Int`, since the cache may hold any number). -/
structure CComment where
  id : String
  userName : String
  email : String
  homePage : Option String
  text : String
  parentId : Option String
  createdAt : String
  repliesCount : Int
  attachments : List AttachmentRow
deriving DecidableEq, Repr

/-- One cached page (`CommentsResponse`). -/
structure PageC where
  data : List CComment
  nextCursor : Option String
deriving DecidableEq, Repr

/-- `InfiniteData<CommentsResponse>` held per query. -/
structure InfiniteData where
  pages : List PageC
  pageParams : List (Option String)
deriving DecidableEq, Repr

/-- A TanStack query key as used by `commentKeys`: either
`['comments','roots',sortBy,sortOrder]` or `['comments','replies',parentId]`. -/
inductive QueryKey
  | roots (sortBy : SortBy) (sortOrder : SortOrder)
  | replies (parentId : String)
deriving DecidableEq, Repr

/-- The query cache: one `InfiniteData` per cached key. -/
abbrev Cache := List (QueryKey × InfiniteData)

/-- `queryClient.getQueryData(key)`. -/
def getQueryData (c : Cache) (k : QueryKey) : Option InfiniteData :=
  (c.find? (fun e => decide (e.1 = k))).map (fun e => e.2)

/-- `queryClient.setQueryData(key, value)` with a present value: replace
the entry in place, or create it when absent. -/
def setQueryData : Cache → QueryKey → InfiniteData → Cache
  | [], k, v => [(k, v)]
  | e :: rest, k, v => if e.1 = k then (k, v) :: rest else e :: setQueryData rest k v

/-- `queryClient.setQueryData(key, maybeValue)`: per TanStack semantics,
setting `undefined` performs no update at all. -/
def setQueryDataOpt (c : Cache) (k : QueryKey) : Option InfiniteData → Cache
  | none => c
  | some v => setQueryData c k v

/-- The predicate `query.queryKey.includes('roots')` used with
`getQueriesData` on the `['comments']` prefix. -/
def isRootsKey : QueryKey → Bool
  | .roots _ _ => true
  | .replies _ => false

/-- `getQueriesData({queryKey: commentKeys.all, predicate: includes('roots')})`. -/
def rootsEntries (c : Cache) : List (QueryKey × InfiniteData) :=
  c.filter (fun e => isRootsKey e.1)

/-- A sequence of `setQueryData` calls (the `forEach` loops). -/
def forEachSet (c : Cache) (pairs : List (QueryKey × InfiniteData)) : Cache :=
  pairs.foldl (fun acc e => setQueryData acc e.1 e.2) c

/-- `updateCommentRepliesCount` from `queries.ts`: bump the target
comment's `repliesCount`, clamped at zero (`Math.max(0, …)`). -/
def updateCommentRepliesCount (comments : List CComment) (targetId : String)
    (increment : Int) : List CComment :=
  comments.map (fun cm =>
    if cm.id = targetId then
      { cm with repliesCount := max 0 (cm.repliesCount + increment) }
    else cm)

/-- Prepend the optimistic comment to the first cached page
(`pages.map((page, index) => index === 0 ? … : page)`). -/
def prependFirstPage (opt : CComment) (d : InfiniteData) : InfiniteData :=
  { d with
    pages := d.pages.mapIdx (fun i p =>
      if i == 0 then { p with data := opt :: p.data } else p) }

/-- Apply `updateCommentRepliesCount` to every page of a cached query. -/
def bumpParent (pid : String) (increment : Int) (d : InfiniteData) : InfiniteData :=
  { d with
    pages := d.pages.map (fun p =>
      { p with data := updateCommentRepliesCount p.data pid increment }) }

/-- The context object returned by `onMutate` and consumed by `onError`. -/
structure MutCtx where
  isReply : Bool
  parentId : Option String
  previousReplies : Option InfiniteData
  previousQueries : List (QueryKey × InfiniteData)
deriving Repr

/-- The provisional comment built in `onMutate` (temporary id,
client-assigned `createdAt`, zero `repliesCount`; the runtime object
carries no attachments, embedded as `[]`). -/
def optimisticComment (dto : CreateCommentDto) (tempId : String)
    (nowIso : String) : CComment :=
  { id := tempId
    userName := dto.userName
    email := dto.email
    homePage := orNull dto.homePage
    text := dto.text
    parentId := orNull dto.parentId
    createdAt := nowIso
    repliesCount := 0
    attachments := [] }

/-- `useAddComment.onMutate`: for a reply (`if (newComment.parentId)`),
snapshot the parent's replies cache, prepend the optimistic comment to its
first page (creating the entry when absent), and increment the parent's
`repliesCount` in every cached roots query; for a root comment, snapshot
all cached roots queries and prepend the optimistic comment to each first
page. -/
def onMutate (cache : Cache) (dto : CreateCommentDto) (tempId : String)
    (nowIso : String) : Cache × MutCtx :=
  let opt := optimisticComment dto tempId nowIso
  match dto.parentId, strTruthy dto.parentId with
  | some p, true =>
    let repliesKey := QueryKey.replies p
    let previousReplies := getQueryData cache repliesKey
    let newRepliesData :=
      match previousReplies with
      | none =>
        ({ pages := [{ data := [opt], nextCursor := none }],
           pageParams := [none] } : InfiniteData)
      | some old => prependFirstPage opt old
    let cache1 := setQueryData cache repliesKey newRepliesData
    let cache2 := forEachSet cache1
      ((rootsEntries cache1).map (fun e => (e.1, bumpParent p 1 e.2)))
    (cache2,
      { isReply := true, parentId := some p,
        previousReplies := previousReplies, previousQueries := [] })
  | _, _ =>
    let prev := rootsEntries cache
    let cache1 := forEachSet cache
      (prev.map (fun e => (e.1, prependFirstPage opt e.2)))
    (cache1,
      { isReply := false, parentId := none,
        previousReplies := none, previousQueries := prev })

/-- `useAddComment.onError`: for a reply, write the snapshot back into the
parent's replies cache (a `none` snapshot performs no update) and revert
the parent's `repliesCount` in every cached roots query by a mirrored
decrement; for a root comment, write every snapshotted roots query back. -/
def onError (cache : Cache) (ctx : MutCtx) : Cache :=
  match ctx.isReply, ctx.parentId, strTruthy ctx.parentId with
  | true, some p, true =>
    let cache1 := setQueryDataOpt cache (QueryKey.replies p) ctx.previousReplies
    forEachSet cache1
      ((rootsEntries cache1).map (fun e => (e.1, bumpParent p (-1) e.2)))
  | _, _, _ => forEachSet cache ctx.previousQueries

/-! ### C4: optimistic update and rollback -/

/-- A cached root comment used in the C4 counterexample. -/
def parentC : CComment :=
  { id := "p1", userName := "u", email := "e@x.y", homePage := none, text := "t",
    parentId := none, createdAt := "2024-01-01", repliesCount := 0, attachments := [] }

/-- A cache holding one roots query and no replies query for `p1`. -/
def cacheC4 : Cache :=
  [(QueryKey.roots SortBy.createdAt SortOrder.desc,
    { pages := [{ data := [parentC], nextCursor := none }], pageParams := [none] })]

/-- A reply submission to the cached comment `p1`. -/
def replyDtoC4 : CreateCommentDto :=
  { userName := "bob", email := "b@x.y", homePage := none, text := "re",
    parentId := some "p1", captchaToken := "tok" }

/-- C4 counterexample: replying to a comment whose replies list was never
fetched. `onMutate` creates a replies cache entry holding the optimistic
comment; `onError` writes the snapshot back, but the snapshot is
`undefined` and `setQueryData` with `undefined` performs no update, so the
optimistic entry survives the rollback: the affected replies query is not
restored to its pre-mutation value (it was uncached, now it is cached with
the temporary comment). -/
theorem c4_rollback_not_exact :
    getQueryData
      (onError (onMutate cacheC4 replyDtoC4 "temp-1" "2024-01-02").1
        (onMutate cacheC4 replyDtoC4 "temp-1" "2024-01-02").2)
      (QueryKey.replies "p1")
    ≠ getQueryData cacheC4 (QueryKey.replies "p1") := by decide

/-! ### Cache lemmas for the rollback proof -/

theorem find?_setQueryData_self (c : Cache) (k : QueryKey) (v : InfiniteData) :
    (setQueryData c k v).find? (fun e => decide (e.1 = k)) = some (k, v) := by
  induction c with
  | nil => simp [setQueryData, List.find?]
  | cons e rest ih =>
    by_cases h : e.1 = k
    · simp [setQueryData, h, List.find?]
    · simp only [setQueryData, if_neg h]
      rw [List.find?_cons_of_neg _ (by simp [h])]
      exact ih

theorem find?_setQueryData_ne (c : Cache) (k : QueryKey) (v : InfiniteData)
    (k' : QueryKey) (h : k' ≠ k) :
    (setQueryData c k v).find? (fun e => decide (e.1 = k'))
      = c.find? (fun e => decide (e.1 = k')) := by
  induction c with
  | nil =>
    simp [setQueryData, List.find?, Ne.symm h]
  | cons e rest ih =>
    by_cases he : e.1 = k
    · simp only [setQueryData, if_pos he]
      rw [List.find?_cons_of_neg _ (by simp [Ne.symm h]),
        List.find?_cons_of_neg _ (by simp [he, Ne.symm h])]
    · simp only [setQueryData, if_neg he]
      by_cases hk' : e.1 = k'
      · rw [List.find?_cons_of_pos _ (by simp [hk']),
          List.find?_cons_of_pos _ (by simp [hk'])]
      · rw [List.find?_cons_of_neg _ (by simp [hk']),
          List.find?_cons_of_neg _ (by simp [hk'])]
        exact ih

theorem map_fst_setQueryData_mem (c : Cache) (k : QueryKey) (v : InfiniteData)
    (h : k ∈ c.map Prod.fst) :
    (setQueryData c k v).map Prod.fst = c.map Prod.fst := by
  induction c with
  | nil => simp at h
  | cons e rest ih =>
    by_cases he : e.1 = k
    · simp [setQueryData, he]
    · have h' : k ∈ rest.map Prod.fst := by
        rcases List.mem_cons.mp h with h | h
        · exact absurd h.symm he
        · exact h
      simp [setQueryData, he, ih h']

theorem find?_forEachSet (pairs : List (QueryKey × InfiniteData)) :
    ∀ (c : Cache) (k : QueryKey), (pairs.map Prod.fst).Nodup →
      (forEachSet c pairs).find? (fun e => decide (e.1 = k))
        = match pairs.find? (fun e => decide (e.1 = k)) with
          | some e => some e
          | none => c.find? (fun e => decide (e.1 = k)) := by
  induction pairs with
  | nil =>
    intro c k _
    rfl
  | cons e0 rest ih =>
    intro c k hn
    rw [List.map_cons, List.nodup_cons] at hn
    have hstep : forEachSet c (e0 :: rest) = forEachSet (setQueryData c e0.1 e0.2) rest := rfl
    rw [hstep, ih _ k hn.2]
    by_cases hk : e0.1 = k
    · have hkrest : rest.find? (fun e => decide (e.1 = k)) = none := by
        apply List.find?_eq_none.mpr
        intro e he hpe
        have hek : e.1 = k := of_decide_eq_true hpe
        apply hn.1
        rw [hk, ← hek]
        exact List.mem_map_of_mem Prod.fst he
      rw [hkrest, ← hk, find?_setQueryData_self,
        List.find?_cons_of_pos _ (by simp)]
    · rw [find?_setQueryData_ne _ _ _ _ (fun hc => hk hc.symm),
        List.find?_cons_of_neg _ (by simp [hk])]

theorem map_fst_forEachSet (pairs : List (QueryKey × InfiniteData)) :
    ∀ c : Cache, (∀ e ∈ pairs, e.1 ∈ c.map Prod.fst) →
      (forEachSet c pairs).map Prod.fst = c.map Prod.fst := by
  induction pairs with
  | nil =>
    intro c _
    rfl
  | cons e0 rest ih =>
    intro c hmem
    have h0 : e0.1 ∈ c.map Prod.fst := hmem e0 (List.mem_cons_self _ _)
    have hkeys : (setQueryData c e0.1 e0.2).map Prod.fst = c.map Prod.fst :=
      map_fst_setQueryData_mem _ _ _ h0
    have hstep : forEachSet c (e0 :: rest) = forEachSet (setQueryData c e0.1 e0.2) rest := rfl
    rw [hstep, ih _ (fun e he => by
      rw [hkeys]; exact hmem e (List.mem_cons_of_mem _ he)), hkeys]

theorem find?_filter_of_imp {α : Type} {p q : α → Bool} (l : List α)
    (h : ∀ a, p a = true → q a = true) : (l.filter q).find? p = l.find? p := by
  induction l with
  | nil => rfl
  | cons a t ih =>
    cases hq : q a
    · have hp : p a = false := by
        cases hp' : p a
        · rfl
        · exact absurd (h a hp') (by simp [hq])
      rw [List.filter_cons_of_neg (by simp [hq]),
        List.find?_cons_of_neg _ (by simp [hp])]
      exact ih
    · rw [List.filter_cons_of_pos (by simp [hq])]
      cases hp : p a
      · rw [List.find?_cons_of_neg _ (by simp [hp]),
          List.find?_cons_of_neg _ (by simp [hp])]
        exact ih
      · rw [List.find?_cons_of_pos _ (by simp [hp]),
          List.find?_cons_of_pos _ (by simp [hp])]

theorem rootsEntries_find?_eq {c : Cache} {k : QueryKey} (hk : isRootsKey k = true) :
    (rootsEntries c).find? (fun e => decide (e.1 = k))
      = c.find? (fun e => decide (e.1 = k)) :=
  find?_filter_of_imp c (fun e hpe => by rw [of_decide_eq_true hpe]; exact hk)

theorem rootsEntries_find?_none {c : Cache} {k : QueryKey} (hk : isRootsKey k = false) :
    (rootsEntries c).find? (fun e => decide (e.1 = k)) = none := by
  apply List.find?_eq_none.mpr
  intro e he hpe
  have h1 : isRootsKey e.1 = true := (List.mem_filter.mp he).2
  rw [of_decide_eq_true hpe, hk] at h1
  exact Bool.noConfusion h1

theorem find?_pairs_map (l : List (QueryKey × InfiniteData))
    (f : InfiniteData → InfiniteData) (k : QueryKey) :
    (l.map (fun e => (e.1, f e.2))).find? (fun e => decide (e.1 = k))
      = (l.find? (fun e => decide (e.1 = k))).map (fun e => (e.1, f e.2)) := by
  induction l with
  | nil => rfl
  | cons e t ih =>
    by_cases hk : e.1 = k
    · rw [List.map_cons, List.find?_cons_of_pos _ (by simp [hk]),
        List.find?_cons_of_pos _ (by simp [hk])]
      rfl
    · rw [List.map_cons, List.find?_cons_of_neg _ (by simp [hk]),
        List.find?_cons_of_neg _ (by simp [hk]), ih]

theorem map_fst_pairs_map (l : List (QueryKey × InfiniteData))
    (f : InfiniteData → InfiniteData) :
    (l.map (fun e => (e.1, f e.2))).map Prod.fst = l.map Prod.fst := by
  rw [List.map_map]
  rfl

theorem pairs_keys_sub (c : Cache) (f : InfiniteData → InfiniteData) :
    ∀ e ∈ (rootsEntries c).map (fun e => (e.1, f e.2)), e.1 ∈ c.map Prod.fst := by
  intro e he
  obtain ⟨e0, he0, rfl⟩ := List.mem_map.mp he
  have he0' : e0 ∈ c := (List.filter_sublist c).subset he0
  show e0.1 ∈ c.map Prod.fst
  exact List.mem_map_of_mem Prod.fst he0'

theorem mem_keys_of_getQueryData {c : Cache} {k : QueryKey} {d : InfiniteData}
    (h : getQueryData c k = some d) : k ∈ c.map Prod.fst := by
  unfold getQueryData at h
  obtain ⟨e, he, -⟩ := Option.map_eq_some'.mp h
  have hm := List.mem_of_find?_eq_some he
  have hp := List.find?_some he
  rw [← of_decide_eq_true hp]
  exact List.mem_map_of_mem Prod.fst hm

theorem rootsEntries_keys_nodup {c : Cache} (h : (c.map Prod.fst).Nodup) :
    ((rootsEntries c).map Prod.fst).Nodup :=
  ((List.filter_sublist c).map Prod.fst).nodup h

theorem updateCount_roundtrip (p : String) (l : List CComment)
    (h : ∀ cm ∈ l, 0 ≤ cm.repliesCount) :
    updateCommentRepliesCount (updateCommentRepliesCount l p 1) p (-1) = l := by
  unfold updateCommentRepliesCount
  rw [List.map_map]
  conv_rhs => rw [← List.map_id l]
  apply List.map_congr_left
  intro cm hcm
  have h0 := h cm hcm
  obtain ⟨i, un, em, hp', tx, pid, ca, rc, att⟩ := cm
  simp only at h0
  by_cases hid : i = p
  · subst hid
    simp [Function.comp]
    omega
  · simp [Function.comp, hid]

theorem bump_roundtrip (p : String) (d : InfiniteData)
    (h : ∀ pg ∈ d.pages, ∀ cm ∈ pg.data, 0 ≤ cm.repliesCount) :
    bumpParent p (-1) (bumpParent p 1 d) = d := by
  obtain ⟨pages, params⟩ := d
  unfold bumpParent
  simp only
  congr 1
  rw [List.map_map]
  conv_rhs => rw [← List.map_id pages]
  apply List.map_congr_left
  intro pg hpg
  obtain ⟨data, nc⟩ := pg
  simp only [Function.comp, id]
  congr 1
  exact updateCount_roundtrip p data (fun cm hcm => h _ hpg cm hcm)

theorem getQueryData_forEachSet (pairs : List (QueryKey × InfiniteData)) (c : Cache)
    (k : QueryKey) (hn : (pairs.map Prod.fst).Nodup) :
    getQueryData (forEachSet c pairs) k
      = match pairs.find? (fun e => decide (e.1 = k)) with
        | some e => some e.2
        | none => getQueryData c k := by
  unfold getQueryData
  rw [find?_forEachSet pairs c k hn]
  cases pairs.find? (fun e => decide (e.1 = k)) <;> rfl

theorem getQueryData_set_self (c : Cache) (k : QueryKey) (v : InfiniteData) :
    getQueryData (setQueryData c k v) k = some v := by
  unfold getQueryData
  rw [find?_setQueryData_self]
  rfl

theorem getQueryData_set_ne (c : Cache) (k : QueryKey) (v : InfiniteData)
    (k' : QueryKey) (h : k' ≠ k) :
    getQueryData (setQueryData c k v) k' = getQueryData c k' := by
  unfold getQueryData
  rw [find?_setQueryData_ne _ _ _ _ h]

/-- Rollback of a root-comment submission: mutating every cached roots
query and then replaying the full pre-mutation snapshots restores every
cached query pointwise. -/
theorem root_pointwise (cache : Cache) (f : InfiniteData → InfiniteData)
    (hkeys : (cache.map Prod.fst).Nodup) (k : QueryKey) :
    getQueryData
      (forEachSet
        (forEachSet cache ((rootsEntries cache).map (fun e => (e.1, f e.2))))
        (rootsEntries cache)) k
      = getQueryData cache k := by
  have hnPrev : ((rootsEntries cache).map Prod.fst).Nodup := rootsEntries_keys_nodup hkeys
  have hnPairs : (((rootsEntries cache).map (fun e => (e.1, f e.2))).map Prod.fst).Nodup := by
    rw [map_fst_pairs_map]
    exact hnPrev
  set c1 := forEachSet cache ((rootsEntries cache).map (fun e => (e.1, f e.2))) with hc1
  have hfind_c1 : ∀ k', c1.find? (fun e => decide (e.1 = k'))
      = match (rootsEntries cache).find? (fun e => decide (e.1 = k')) with
        | some e => some (e.1, f e.2)
        | none => cache.find? (fun e => decide (e.1 = k')) := by
    intro k'
    rw [hc1, find?_forEachSet _ _ _ hnPairs, find?_pairs_map]
    cases hre : (rootsEntries cache).find? (fun e => decide (e.1 = k')) <;> simp [hre]
  rw [getQueryData_forEachSet _ _ _ hnPrev]
  cases hrk : isRootsKey k
  · rw [rootsEntries_find?_none hrk]
    show getQueryData c1 k = getQueryData cache k
    unfold getQueryData
    rw [hfind_c1 k, rootsEntries_find?_none hrk]
  · rw [rootsEntries_find?_eq hrk]
    cases hcf : cache.find? (fun e => decide (e.1 = k)) with
    | none =>
      show getQueryData c1 k = getQueryData cache k
      unfold getQueryData
      rw [hfind_c1 k, rootsEntries_find?_eq hrk, hcf]
    | some e =>
      show some e.2 = getQueryData cache k
      unfold getQueryData
      rw [hcf]
      rfl

/-- Rollback of a reply submission whose parent replies-list was already
cached and whose cached counts are nonnegative: restoring the replies
snapshot and decrementing the parent's count restores every cached query
pointwise. -/
theorem reply_pointwise (cache : Cache) (p : String) (d0 newData : InfiniteData)
    (hkeys : (cache.map Prod.fst).Nodup)
    (hcounts : ∀ e ∈ cache, ∀ pg ∈ e.2.pages, ∀ cm ∈ pg.data, 0 ≤ cm.repliesCount)
    (hd0 : getQueryData cache (QueryKey.replies p) = some d0) (k : QueryKey) :
    getQueryData
      (forEachSet
        (setQueryData
          (forEachSet (setQueryData cache (QueryKey.replies p) newData)
            ((rootsEntries (setQueryData cache (QueryKey.replies p) newData)).map
              (fun e => (e.1, bumpParent p 1 e.2))))
          (QueryKey.replies p) d0)
        ((rootsEntries
          (setQueryData
            (forEachSet (setQueryData cache (QueryKey.replies p) newData)
              ((rootsEntries (setQueryData cache (QueryKey.replies p) newData)).map
                (fun e => (e.1, bumpParent p 1 e.2))))
            (QueryKey.replies p) d0)).map (fun e => (e.1, bumpParent p (-1) e.2))))
      k = getQueryData cache k := by
  have hmemrep : QueryKey.replies p ∈ cache.map Prod.fst := mem_keys_of_getQueryData hd0
  set c1 := setQueryData cache (QueryKey.replies p) newData with hc1
  set c2 := forEachSet c1 ((rootsEntries c1).map (fun e => (e.1, bumpParent p 1 e.2))) with hc2
  set c3 := setQueryData c2 (QueryKey.replies p) d0 with hc3
  have hk1 : c1.map Prod.fst = cache.map Prod.fst := map_fst_setQueryData_mem _ _ _ hmemrep
  have hn1 : (c1.map Prod.fst).Nodup := by rw [hk1]; exact hkeys
  have hnInc : (((rootsEntries c1).map (fun e => (e.1, bumpParent p 1 e.2))).map
      Prod.fst).Nodup := by
    rw [map_fst_pairs_map]
    exact rootsEntries_keys_nodup hn1
  have hk2 : c2.map Prod.fst = c1.map Prod.fst := map_fst_forEachSet _ _ (pairs_keys_sub c1 _)
  have hn2 : (c2.map Prod.fst).Nodup := by rw [hk2]; exact hn1
  have hmem2 : QueryKey.replies p ∈ c2.map Prod.fst := by rw [hk2, hk1]; exact hmemrep
  have hk3 : c3.map Prod.fst = c2.map Prod.fst := map_fst_setQueryData_mem _ _ _ hmem2
  have hn3 : (c3.map Prod.fst).Nodup := by rw [hk3]; exact hn2
  have hnDec : (((rootsEntries c3).map (fun e => (e.1, bumpParent p (-1) e.2))).map
      Prod.fst).Nodup := by
    rw [map_fst_pairs_map]
    exact rootsEntries_keys_nodup hn3
  have hfind_c1 : ∀ k', k' ≠ QueryKey.replies p →
      c1.find? (fun e => decide (e.1 = k')) = cache.find? (fun e => decide (e.1 = k')) := by
    intro k' hne
    rw [hc1]
    exact find?_setQueryData_ne _ _ _ _ hne
  have hfind_c2roots : ∀ k', isRootsKey k' = true → k' ≠ QueryKey.replies p →
      c2.find? (fun e => decide (e.1 = k'))
        = (cache.find? (fun e => decide (e.1 = k'))).map
            (fun e => (e.1, bumpParent p 1 e.2)) := by
    intro k' hrk hne
    rw [hc2, find?_forEachSet _ _ _ hnInc, find?_pairs_map, rootsEntries_find?_eq hrk,
      hfind_c1 k' hne]
    cases hcf : cache.find? (fun e => decide (e.1 = k')) <;> simp [hcf]
  have hfind_c2nonroots : ∀ k', isRootsKey k' = false → k' ≠ QueryKey.replies p →
      c2.find? (fun e => decide (e.1 = k'))
        = cache.find? (fun e => decide (e.1 = k')) := by
    intro k' hrk hne
    rw [hc2, find?_forEachSet _ _ _ hnInc, find?_pairs_map, rootsEntries_find?_none hrk,
      hfind_c1 k' hne]
    simp
  have hfind_c3 : ∀ k', k' ≠ QueryKey.replies p →
      c3.find? (fun e => decide (e.1 = k')) = c2.find? (fun e => decide (e.1 = k')) := by
    intro k' hne
    rw [hc3]
    exact find?_setQueryData_ne _ _ _ _ hne
  rw [getQueryData_forEachSet _ _ _ hnDec, find?_pairs_map]
  by_cases hkp : k = QueryKey.replies p
  · subst hkp
    rw [rootsEntries_find?_none
      (show isRootsKey (QueryKey.replies p) = false from rfl)]
    show getQueryData c3 (QueryKey.replies p) = getQueryData cache (QueryKey.replies p)
    rw [hc3, getQueryData_set_self]
    exact hd0.symm
  · cases hrk : isRootsKey k
    · rw [rootsEntries_find?_none hrk]
      show getQueryData c3 k = getQueryData cache k
      unfold getQueryData
      rw [hfind_c3 k hkp, hfind_c2nonroots k hrk hkp]
    · rw [rootsEntries_find?_eq hrk, hfind_c3 k hkp, hfind_c2roots k hrk hkp]
      cases hcf : cache.find? (fun e => decide (e.1 = k)) with
      | none =>
        show getQueryData c3 k = getQueryData cache k
        unfold getQueryData
        rw [hfind_c3 k hkp, hfind_c2roots k hrk hkp, hcf]
        rfl
      | some e =>
        have he : e ∈ cache := List.mem_of_find?_eq_some hcf
        have hroundtrip : bumpParent p (-1) (bumpParent p 1 e.2) = e.2 :=
          bump_roundtrip p e.2 (hcounts e he)
        show some (bumpParent p (-1) (bumpParent p 1 e.2)) = getQueryData cache k
        rw [hroundtrip]
        unfold getQueryData
        rw [hcf]
        rfl

/-- C4 amended: applying the Pending optimistic update and then the
rollback restores every cached query to a value deep-equal to its
pre-mutation state, provided that for a reply submission the parent's
replies query is already cached (otherwise the optimistic entry survives,
see the counterexample) and cached reply counts are nonnegative. For root
submissions the restoration is replayed from the full per-query snapshots;
for reply submissions the replies cache is restored from its snapshot
while the parent's `repliesCount` in the roots queries is reverted by the
mirrored decrement, not from a snapshot. -/
theorem c4_amended_rollback_restores (cache : Cache) (dto : CreateCommentDto)
    (tempId nowIso : String)
    (hkeys : (cache.map Prod.fst).Nodup)
    (hcounts : ∀ e ∈ cache, ∀ pg ∈ e.2.pages, ∀ cm ∈ pg.data, 0 ≤ cm.repliesCount)
    (hreplies : ∀ p, dto.parentId = some p → strTruthy dto.parentId = true →
      getQueryData cache (QueryKey.replies p) ≠ none) :
    ∀ k, getQueryData
        (onError (onMutate cache dto tempId nowIso).1
          (onMutate cache dto tempId nowIso).2) k
      = getQueryData cache k := by
  intro k
  cases hpid : dto.parentId with
  | none =>
    have hmut : onMutate cache dto tempId nowIso
        = (forEachSet cache ((rootsEntries cache).map
            (fun e => (e.1, prependFirstPage (optimisticComment dto tempId nowIso) e.2))),
           { isReply := false, parentId := none, previousReplies := none,
             previousQueries := rootsEntries cache }) := by
      unfold onMutate
      rw [hpid]
    rw [hmut]
    exact root_pointwise cache _ hkeys k
  | some p =>
    cases htr : strTruthy dto.parentId with
    | false =>
      have htr' : strTruthy (some p) = false := hpid ▸ htr
      have hmut : onMutate cache dto tempId nowIso
          = (forEachSet cache ((rootsEntries cache).map
              (fun e => (e.1, prependFirstPage (optimisticComment dto tempId nowIso) e.2))),
             { isReply := false, parentId := none, previousReplies := none,
               previousQueries := rootsEntries cache }) := by
        unfold onMutate
        rw [hpid, htr']
      rw [hmut]
      exact root_pointwise cache _ hkeys k
    | true =>
      have htr' : strTruthy (some p) = true := hpid ▸ htr
      obtain ⟨d0, hd0⟩ := Option.ne_none_iff_exists'.mp (hreplies p hpid htr)
      have hmut : onMutate cache dto tempId nowIso
          = (forEachSet
              (setQueryData cache (QueryKey.replies p)
                (prependFirstPage (optimisticComment dto tempId nowIso) d0))
              ((rootsEntries (setQueryData cache (QueryKey.replies p)
                (prependFirstPage (optimisticComment dto tempId nowIso) d0))).map
                (fun e => (e.1, bumpParent p 1 e.2))),
             { isReply := true, parentId := some p, previousReplies := some d0,
               previousQueries := [] }) := by
        unfold onMutate
        rw [hpid, htr']
        dsimp only
        rw [hd0]
      rw [hmut]
      show getQueryData (onError _ _) k = getQueryData cache k
      unfold onError
      dsimp only
      rw [htr']
      dsimp only
      exact reply_pointwise cache p d0
        (prependFirstPage (optimisticComment dto tempId nowIso) d0)
        hkeys hcounts hd0 k

/-! ### Concrete fixtures and witnesses -/

def wr1 : Row := ⟨"a", "u", "e", none, "t1", none, 5⟩

def wr2 : Row := ⟨"b", "u", "e", none, "t2", none, 4⟩

def wr3 : Row := ⟨"c", "u", "e", none, "t3", none, 3⟩

def wr4 : Row := ⟨"d", "u", "e", none, "t4", some "a", 2⟩

def wr5 : Row := ⟨"e", "u", "e", none, "t5", none, 1⟩

def wr6 : Row := ⟨"f", "u", "e", none, "t6", none, 6⟩

def wS1 : List Row := [wr1, wr2, wr3, wr4, wr5]

def wNew : List Row := [wr6]

def wq : GetCommentsQueryDto := ⟨2, none, .createdAt, .desc⟩

def wq2 : GetCommentsQueryDto := ⟨2, some "b", .createdAt, .desc⟩

def wqzz : GetCommentsQueryDto := ⟨2, some "zz", .createdAt, .desc⟩

def wLast : CommentOut := toOut wS1 [] wr2

theorem c1_keyset_pagination_witness :
    (((wS1 ++ wNew).map Row.id).Nodup ∧
      (∀ r ∈ wS1 ++ wNew, r.id ≠ "") ∧
      (∀ r ∈ wS1 ++ wNew, r.parentId ≠ some r.id) ∧
      1 ≤ wq.limit ∧ wq.limit ≤ 100 ∧
      (findComments wS1 [] wq none).nextCursor = some "b" ∧
      (findComments wS1 [] wq none).data.getLast? = some wLast ∧
      (∀ n ∈ wNew, scopeCond none n = true ∧
        rowLT wq.sortBy wq.sortOrder n (outRow wLast))) ∧
    ((∀ x ∈ (findComments wS1 [] wq none).data,
        ∀ y ∈ (findComments (wS1 ++ wNew) [] { wq with cursor := some "b" } none).data,
          x.id ≠ y.id) ∧
      (findComments wS1 [] wq none).data
          ++ (findComments (wS1 ++ wNew) [] { wq with cursor := some "b" } none).data
        = (findComments wS1 [] { wq with limit := 2 * wq.limit } none).data) :=
  ⟨⟨by decide, by decide, by decide, by decide, by decide, by decide, by decide, by decide⟩,
    c1_keyset_pagination wS1 wNew [] wq none "b" wLast (by decide) (by decide) (by decide)
      (by decide) (by decide) (by decide) (by decide) (by decide)⟩

def wo1 : CommentOut := ⟨"a", "u", "e", none, "t1", none, 5, 0, []⟩

def wo2 : CommentOut := ⟨"b", "u", "e", none, "t2", none, 4, 0, []⟩

theorem c2_pagination_assembler_witness :
    ([wo1, wo2].length ≤ 1 + 1 ∧ 1 ≤ 1) ∧
    ((1 < [wo1, wo2].length →
      (processPaginationResults [wo1, wo2] 1).data = [wo1, wo2].take 1 ∧
      ∃ last, ([wo1, wo2].take 1).getLast? = some last ∧
        (processPaginationResults [wo1, wo2] 1).nextCursor = some last.id) ∧
    ([wo1, wo2].length ≤ 1 →
      (processPaginationResults [wo1, wo2] 1).data = [wo1, wo2] ∧
      (processPaginationResults [wo1, wo2] 1).nextCursor = none)) :=
  ⟨⟨by decide, by decide⟩, c2_pagination_assembler [wo1, wo2] 1 (by decide) (by decide)⟩

theorem c3_cursor_keyset_predicate_witness :
    (wq2.cursor = some "b" ∧ findCursorRow wS1 "b" = some wr2) ∧
    (∃ pred, buildCursorCondition wS1 wq2 = some pred ∧ ∀ r : Row,
      pred r = true ↔
        (match wq2.sortOrder with
         | .desc => fieldLt wq2.sortBy r wr2 ∨
             (fieldEq wq2.sortBy r wr2 ∧ r.id < wr2.id)
         | .asc => fieldLt wq2.sortBy wr2 r ∨
             (fieldEq wq2.sortBy r wr2 ∧ wr2.id < r.id))) :=
  ⟨⟨rfl, by decide⟩, c3_cursor_keyset_predicate wS1 wq2 "b" wr2 rfl (by decide)⟩

def cacheW : Cache :=
  [(QueryKey.roots SortBy.createdAt SortOrder.desc,
    { pages := [{ data := [parentC], nextCursor := none }], pageParams := [none] }),
   (QueryKey.replies "p1",
    { pages := [{ data := [], nextCursor := none }], pageParams := [none] })]

theorem c4_amended_rollback_restores_witness :
    ((cacheW.map Prod.fst).Nodup ∧
      (∀ e ∈ cacheW, ∀ pg ∈ e.2.pages, ∀ cm ∈ pg.data, 0 ≤ cm.repliesCount) ∧
      (∀ p, replyDtoC4.parentId = some p → strTruthy replyDtoC4.parentId = true →
        getQueryData cacheW (QueryKey.replies p) ≠ none)) ∧
    (∀ k, getQueryData
        (onError (onMutate cacheW replyDtoC4 "temp-1" "2024-01-02").1
          (onMutate cacheW replyDtoC4 "temp-1" "2024-01-02").2) k
      = getQueryData cacheW k) :=
  ⟨⟨by decide, by decide, by
      intro p hp htr
      injection hp with h
      subst h
      decide⟩,
    c4_amended_rollback_restores cacheW replyDtoC4 "temp-1" "2024-01-02"
      (by decide) (by decide) (by
        intro p hp htr
        injection hp with h
        subst h
        decide)⟩

theorem c6_unresolved_cursor_fallback_witness :
    (wqzz.cursor = some "zz" ∧ (∀ r ∈ wS1, r.id ≠ "zz")) ∧
    findComments wS1 [] wqzz none
      = findComments wS1 [] { wqzz with cursor := none } none :=
  ⟨⟨rfl, by decide⟩,
    c6_unresolved_cursor_fallback wS1 [] wqzz none "zz" rfl (by decide)⟩

theorem c7_replies_count_witness :
    (toOut wS1 [] wr1 ∈ (findComments wS1 [] wq none).data) ∧
    (toOut wS1 [] wr1).repliesCount
      = (wS1.filter (fun x => x.parentId == some (toOut wS1 [] wr1).id)).length :=
  ⟨by decide, c7_replies_count wS1 [] wq none (toOut wS1 [] wr1) (by decide)⟩

theorem c8_total_order_witness :
    ((wS1.map Row.id).Nodup) ∧
    ((findComments wS1 [] wq none).data).Pairwise
      (fun a b => rowLT wq.sortBy wq.sortOrder (outRow a) (outRow b)) :=
  ⟨by decide, c8_total_order wS1 [] wq none (by decide)⟩

def wdto : CreateCommentDto :=
  { userName := "bob", email := "b@x.y", homePage := none, text := "hello",
    parentId := none, captchaToken := "tok" }

theorem c9_attachment_failure_keeps_comment_witness :
    ((["f.png"] : List String).isEmpty = false) ∧
    ((createComment [] [] wdto true (fun t => t) "n1" 0 ["f.png"] none).result
        = .error "Failed to process attachments" ∧
      (createComment [] [] wdto true (fun t => t) "n1" 0 ["f.png"] none).comments
        = [] ++ [⟨"n1", wdto.userName, wdto.email, orNull wdto.homePage,
            (fun t : String => t) wdto.text, orNull wdto.parentId, 0⟩] ∧
      (createComment [] [] wdto true (fun t => t) "n1" 0 ["f.png"] none).attachments
        = []) :=
  ⟨by decide,
    c9_attachment_failure_keeps_comment [] [] wdto (fun t => t) "n1" 0 ["f.png"] (by decide)⟩

def wraw : RawQuery := ⟨none, some "not-a-uuid", none, none⟩

theorem c10_cursor_validated_before_query_witness :
    (wraw.cursor = some "not-a-uuid" ∧ isValidUuid "not-a-uuid" = false) ∧
    (∃ e, findAllRoute wS1 [] wraw = Except.error e) :=
  ⟨⟨rfl, by decide⟩,
    (c10_cursor_validated_before_query wS1 [] wraw).1 "not-a-uuid" rfl (by decide)⟩
